import Mathlib

/-!
Verification of the link-state routing daemon core (`shared/router.py`).

Python dictionaries are modelled as association lists kept in insertion
order: assignment replaces the value of the first matching key in place or
appends a fresh pair at the end, `del` removes the key, and iteration over
`items()` follows list order, matching CPython dict semantics.  The only
float values the daemon computes with are `float("inf")` against exact
integer link costs, so distances are `Option Int` with `none` standing for
infinity.  Python statements that can raise (`d[k]` on a missing key) are
modelled with `Except`, and unbounded `while` loops take explicit fuel
that strictly dominates the number of iterations the Python loop performs
on terminating runs.
-/

/-- Python `d.get(k)` on an insertion-ordered dict. -/
def lookupKV {α : Type} (k : String) : List (String × α) → Option α
  | [] => none
  | (k1, v) :: t => if k = k1 then some v else lookupKV k t

/-- Python `d[k] = v`: replace in place if the key exists, else append. -/
def upsertKV {α : Type} (k : String) (v : α) : List (String × α) → List (String × α)
  | [] => [(k, v)]
  | (k1, v1) :: t => if k = k1 then (k, v) :: t else (k1, v1) :: upsertKV k v t

/-- Python `del d[k]` (always guarded by `k in d` in the source). -/
def eraseKV {α : Type} (k : String) : List (String × α) → List (String × α)
  | [] => []
  | (k1, v1) :: t => if k1 = k then eraseKV k t else (k1, v1) :: eraseKV k t

/-- Code-point lexicographic order on character lists, as Python compares
strings. -/
def charListLe : List Char → List Char → Bool
  | [], _ => true
  | _ :: _, [] => false
  | a :: as, b :: bs =>
    if a.toNat < b.toNat then true
    else if b.toNat < a.toNat then false
    else charListLe as bs

/-- Python string `<=` (only ever applied to pairwise distinct keys here). -/
def strLeB (a b : String) : Bool := charListLe a.data b.data

/-- Insertion step of `sorted(d.items())` by key (keys are pairwise distinct). -/
def insertSorted {α : Type} (p : String × α) : List (String × α) → List (String × α)
  | [] => [p]
  | q :: t => if strLeB p.1 q.1 then p :: q :: t else q :: insertSorted p t

/-- Python `dict(sorted(d.items()))`. -/
def sortByKey {α : Type} (l : List (String × α)) : List (String × α) :=
  l.foldr insertSorted []

/-- One LSDB table entry, as built by `LSDB.create_entry`. -/
structure Entry where
  sequence_number : Int
  timestamp : Int
  addresses : List String
  links : List (String × Int)
deriving DecidableEq

def create_entry (sequence_number : Int) (timestamp : Int) (addresses : List String)
    (links : List (String × Int)) : Entry :=
  { sequence_number := sequence_number, timestamp := timestamp,
    addresses := addresses, links := links }

/-- The placeholder `create_entry(-1, 0, [], {})` inserted by
`recalculate_routes` for a router mentioned in links but not yet heard from. -/
def placeholder_entry : Entry := create_entry (-1) 0 [] []

/-- An LSA packet, as built by `LSASender.create_packet`. -/
structure LSAPacket where
  router_id : String
  sequence_number : Int
  timestamp : Int
  addresses : List String
  links : List (String × Int)
deriving DecidableEq

/-- A HELLO packet, as built by `HelloSender.create_packet`. -/
structure HelloPacket where
  router_id : String
  timestamp : Int
  ip_address : String
  known_neighbors : List String
deriving DecidableEq

/-- One issued `ip route replace <dest_ip> via <via_ip>` invocation, together
with the routing-table provenance the code logs (destination router id and
gateway router id). -/
structure Command where
  dest_router : String
  dest_ip : String
  gateway : String
  via_ip : String
deriving DecidableEq

/-- Python exceptions the modelled statements can raise.  `fuelExhausted`
marks a `while` loop that would not have terminated in Python; it is never
reached on the runs analysed here. -/
inductive PyErr where
  | keyError (k : String)
  | fuelExhausted
deriving DecidableEq

namespace LSDB

abbrev Table := List (String × Entry)
abbrev Paths := List (String × Option String)
abbrev Routing := List (String × Option String)

/-- Distance values: `none` is `float("inf")`, `some d` an exact integer. -/
abbrev EDist := Option Int

/-- Python `<` on distances, where `inf < inf` is false. -/
def edLt : EDist → EDist → Bool
  | some x, some y => decide (x < y)
  | some _, none => true
  | none, _ => false

/-- `cost + distances[current_router]`, with `cost + inf = inf`. -/
def edAdd (cost : Int) : EDist → EDist
  | some x => some (cost + x)
  | none => none

/-- The scan for the unvisited router with the smallest distance
(`for node, distance in distances.items()`), strict `<` keeping the first
minimum in dictionary order. -/
def selectMin (visited : List String) :
    List (String × EDist) → Option String × EDist → Option String × EDist
  | [], acc => acc
  | (node, d) :: t, acc =>
    if node ∉ visited ∧ edLt d acc.2 = true then selectMin visited t (some node, d)
    else selectMin visited t acc

/-- The relaxation loop over `self._table[current_router]["links"]`.  The
`distances[neighbor]` subscript raises `KeyError` for a neighbor absent from
the distances dictionary. -/
def relaxLinks (cur : String) (visited : List String) :
    List (String × Int) → List (String × EDist) → Paths →
    Except PyErr (List (String × EDist) × Paths)
  | [], dists, paths => .ok (dists, paths)
  | (nb, cost) :: rest, dists, paths =>
    if nb ∈ visited then relaxLinks cur visited rest dists paths
    else
      match lookupKV cur dists with
      | none => .error (.keyError cur)
      | some dc =>
        match lookupKV nb dists with
        | none => .error (.keyError nb)
        | some dnb =>
          if edLt (edAdd cost dc) dnb then
            relaxLinks cur visited rest (upsertKV nb (edAdd cost dc) dists)
              (upsertKV nb (some cur) paths)
          else relaxLinks cur visited rest dists paths

/-- The `while len(visited) < len(self._table)` loop of `LSDB.dijkstra`.
Each iteration adds one router to `visited`, so `table.length + 1` fuel
strictly dominates the Python iteration count. -/
def dijkstraLoop (table : Table) :
    Nat → List (String × EDist) → Paths → List String → Except PyErr Paths
  | 0, _, _, _ => .error .fuelExhausted
  | fuel + 1, dists, paths, visited =>
    if visited.length < table.length then
      match selectMin visited dists (none, none) with
      | (none, _) => .ok paths
      | (some cur, _) =>
        let visited1 := cur :: visited
        match lookupKV cur table with
        | none => .error (.keyError cur)
        | some e =>
          match relaxLinks cur visited1 e.links dists paths with
          | .error err => .error err
          | .ok (dists1, paths1) => dijkstraLoop table fuel dists1 paths1 visited1
    else .ok paths

/-- `LSDB.dijkstra` of `shared/router.py`.  `distances[self._router_id] = 0`
adds the local router to the distances dictionary even when it has no table
entry, in which case its selection raises `KeyError` at
`self._table[current_router]`. -/
def dijkstra (selfId : String) (table : Table) : Except PyErr Paths :=
  let dists0 : List (String × EDist) := table.map (fun p => (p.1, none))
  let paths0 : Paths := table.map (fun p => (p.1, none))
  let dists1 := upsertKV selfId (some 0) dists0
  dijkstraLoop table (table.length + 1) dists1 paths0 []

/-- The predecessor walk
`while hop is not None and paths[hop] != self._router_id: hop = paths[hop]`.
A predecessor chain over distinct keys performs at most `paths.length`
lookups, so `paths.length + 1` fuel dominates it. -/
def nextHopWalk (paths : Paths) (selfId : String) :
    Nat → Option String → Except PyErr (Option String)
  | _, none => .ok none
  | 0, some _ => .error .fuelExhausted
  | fuel + 1, some h =>
    match lookupKV h paths with
    | none => .error (.keyError h)
    | some p => if p = some selfId then .ok (some h) else nextHopWalk paths selfId fuel p

/-- The `for destination in paths.keys()` loop of `LSDB.update_next_hop`. -/
def update_next_hop_loop (selfId : String) (paths : Paths) :
    List String → Routing → Routing × Option PyErr
  | [], rt => (rt, none)
  | d :: rest, rt =>
    if d ≠ selfId then
      match nextHopWalk paths selfId (paths.length + 1) (some d) with
      | .error e => (rt, some e)
      | .ok hop => update_next_hop_loop selfId paths rest (upsertKV d hop rt)
    else update_next_hop_loop selfId paths rest rt

/-- `LSDB.update_next_hop`: note the unconditional
`self._routing_table[destination] = hop`, which stores `None` as the next hop
of a destination whose predecessor walk ends at `None`, and the final
`dict(sorted(...))`. -/
def update_next_hop (selfId : String) (paths : Paths) (rt : Routing) :
    Routing × Option PyErr :=
  match update_next_hop_loop selfId paths (paths.map Prod.fst) rt with
  | (rt1, none) => (sortByKey rt1, none)
  | (rt1, some e) => (rt1, some e)

/-- The `for dest_router, gateway_router in list(...)` loop of
`LSDB.update_routes`, accumulating the issued route commands. -/
def update_routes_loop (selfId : String) (table : Table)
    (neighbors_ip : List (String × String)) :
    List (String × Option String) → List Command → List Command × Option PyErr
  | [], acc => (acc, none)
  | (dest, gw) :: rest, acc =>
    if dest ≠ selfId then
      match gw with
      | none => update_routes_loop selfId table neighbors_ip rest acc
      | some g =>
        match lookupKV g neighbors_ip with
        | none => update_routes_loop selfId table neighbors_ip rest acc
        | some gip =>
          match lookupKV dest table with
          | none => (acc, some (.keyError dest))
          | some e =>
            update_routes_loop selfId table neighbors_ip rest
              (acc ++ e.addresses.map (fun a =>
                { dest_router := dest, dest_ip := a, gateway := g, via_ip := gip }))
    else update_routes_loop selfId table neighbors_ip rest acc

/-- `LSDB.update_routes`: a gateway of `None`, or one absent from
`self._neighbors_ip`, is skipped with a log line; otherwise one command per
destination address is issued via the recorded neighbor IP. -/
def update_routes (selfId : String) (table : Table)
    (neighbors_ip : List (String × String)) (rt : Routing) :
    List Command × Option PyErr :=
  update_routes_loop selfId table neighbors_ip rt []

/-- The placeholder-discovery loop of `LSDB.recalculate_routes`. -/
def insert_placeholders (table : Table) : List String → Table
  | [] => table
  | nb :: rest =>
    match lookupKV nb table with
    | some _ => insert_placeholders table rest
    | none => insert_placeholders (upsertKV nb placeholder_entry table) rest

structure RecalcResult where
  table : Table
  routing : Routing
  cmds : List Command
  err : Option PyErr

/-- `LSDB.recalculate_routes`: placeholder insertion, Dijkstra, next-hop
derivation, then kernel route installation.  A raised exception leaves the
already-performed table mutations in place and is recorded in `err`. -/
def recalculate_routes (selfId : String) (neighbors_ip : List (String × String))
    (observed : List String) (table : Table) (rt : Routing) : RecalcResult :=
  let table1 := insert_placeholders table observed
  match dijkstra selfId table1 with
  | .error e => { table := table1, routing := rt, cmds := [], err := some e }
  | .ok paths =>
    match update_next_hop selfId paths rt with
    | (rt1, some e) => { table := table1, routing := rt1, cmds := [], err := some e }
    | (rt1, none) =>
      match update_routes selfId table1 neighbors_ip rt1 with
      | (cmds, err) => { table := table1, routing := rt1, cmds := cmds, err := err }

structure UpdateResult where
  table : Table
  routing : Routing
  cmds : List Command
  outcome : Except PyErr Bool

/-- `LSDB.update`: the staleness gate
`if entry and sequence_number <= entry["sequence_number"]: return False`,
then entry replacement and route recalculation over the keys of the packet
links.  An exception raised by the recalculation propagates (recorded as
`.error`) after the table has already been mutated. -/
def update (selfId : String) (neighbors_ip : List (String × String))
    (packet : LSAPacket) (table : Table) (rt : Routing) : UpdateResult :=
  let proceed : UpdateResult :=
    let table1 := upsertKV packet.router_id
      (create_entry packet.sequence_number packet.timestamp packet.addresses
        packet.links) table
    let r := recalculate_routes selfId neighbors_ip (packet.links.map Prod.fst)
      table1 rt
    { table := r.table, routing := r.routing, cmds := r.cmds,
      outcome := match r.err with | some e => .error e | none => .ok true }
  match lookupKV packet.router_id table with
  | some e =>
    if packet.sequence_number ≤ e.sequence_number then
      { table := table, routing := rt, cmds := [], outcome := .ok false }
    else proceed
  | none => proceed

end LSDB

/-- One UDP send performed by the LSA forwarding or sending paths. -/
structure Send where
  neighbor_id : String
  ip : String
  packet : LSAPacket
deriving DecidableEq

/-- `LSASender.forward_to_neighbors`: the re-encoded packet goes to every
recognized neighbor whose recorded IP differs from the incoming source IP
(`if ip != sender_ip`). -/
def forward_to_neighbors (neighbors_ip : List (String × String))
    (packet : LSAPacket) (sender_ip : String) : List Send :=
  (neighbors_ip.filter (fun p => decide (p.2 ≠ sender_ip))).map
    (fun p => { neighbor_id := p.1, ip := p.2, packet := packet })

/-- `NeighborManager.process_lsa`: hand the packet to `LSDB.update` and
forward exactly when it returned `True`; an exception raised inside
`update` propagates before any forwarding happens. -/
def process_lsa (selfId : String) (neighbors_ip : List (String × String))
    (packet : LSAPacket) (sender_ip : String) (table : LSDB.Table)
    (rt : LSDB.Routing) : LSDB.UpdateResult × List Send :=
  let r := LSDB.update selfId neighbors_ip packet table rt
  match r.outcome with
  | .ok true => (r, forward_to_neighbors neighbors_ip packet sender_ip)
  | _ => (r, [])

/-- The shared mutable state of one router daemon: `_detected_neighbors`
(NeighborCost), `_recognized_neighbors` (NeighborIP — the same object as
`LSDB._neighbors_ip` and `LSASender._neighbors_ip`), `_hello_timestamps`
(LastHello), the LSDB table and routing table, and the LSA sender thread
bookkeeping.  `lsa_start_count` counts how many sender threads have ever
been launched. -/
structure NodeState where
  router_id : String
  detected : List (String × Int)
  recognized : List (String × String)
  hello_timestamps : List (String × Int)
  table : LSDB.Table
  routing : LSDB.Routing
  lsa_started : Bool
  lsa_start_count : Nat

/-- The state right after `Router.__init__`: empty neighbor sets, empty
LSDB, LSA sender not started. -/
def router_init (rid : String) : NodeState :=
  { router_id := rid, detected := [], recognized := [], hello_timestamps := [],
    table := [], routing := [], lsa_started := false, lsa_start_count := 0 }

/-- `NeighborManager.get_cost`: the `CONNECTED_TO_ROUTER_<RID>` environment
variable, defaulting to 1 when absent. -/
def get_cost (env : String → Option Int) (neighbor_id : String) : Int :=
  (env neighbor_id).getD 1

/-- `LSASender.start`: launch the sender thread only when `_started` is
still false. -/
def lsa_start (s : NodeState) : NodeState :=
  if s.lsa_started then s
  else { s with lsa_started := true, lsa_start_count := s.lsa_start_count + 1 }

/-- `NeighborManager.process_hello`: record the detected cost and the HELLO
timestamp, then promote the sender to recognized — and signal the LSA
engine — exactly when the HELLO lists this router and the sender is not
yet recognized. -/
def process_hello (env : String → Option Int) (packet : HelloPacket)
    (sender_ip : String) (s : NodeState) : NodeState :=
  let s1 := { s with
    detected := upsertKV packet.router_id (get_cost env packet.router_id) s.detected,
    hello_timestamps := upsertKV packet.router_id packet.timestamp s.hello_timestamps }
  if s1.router_id ∈ packet.known_neighbors ∧
      lookupKV packet.router_id s1.recognized = none then
    lsa_start { s1 with
      recognized := upsertKV packet.router_id sender_ip s1.recognized }
  else s1

/-- One pass of the `while True` body of `NeighborManager.check_failures`:
collect the routers whose last HELLO is older than
`hello_interval * tolerance`, delete each from `_detected_neighbors`,
`_recognized_neighbors` and `_lsdb._table` (the three `if ... in ...: del`
statements), then call `recalculate_routes(failed_routers)`. -/
def check_failures_scan (now hello_interval tolerance : Int) (s : NodeState) :
    NodeState × List Command × Option PyErr :=
  let failed := (s.hello_timestamps.filter
    (fun p => decide (now - p.2 > hello_interval * tolerance))).map Prod.fst
  let detected1 := failed.foldl (fun m r => eraseKV r m) s.detected
  let recognized1 := failed.foldl (fun m r => eraseKV r m) s.recognized
  let table1 := failed.foldl (fun m r => eraseKV r m) s.table
  let r := LSDB.recalculate_routes s.router_id recognized1 failed table1 s.routing
  let s1 := { s with
    detected := detected1,
    recognized := recognized1,
    table := r.table,
    routing := r.routing }
  (s1, r.cmds, r.err)

/-- A network interface as listed by `Router.list_addresses`. -/
structure Interface where
  address : String
  broadcast : Option String
deriving DecidableEq

/-- `LSASender.__init__` sets `self._sequence_number = 0`. -/
def lsa_initial_sequence_number : Int := 0

/-- `LSASender.create_packet`: `self._sequence_number += 1`, then the LSA is
built carrying the post-increment counter, the interface addresses and a
copy of `_neighbors_cost`. -/
def lsa_create_packet (selfId : String) (interfaces : List Interface)
    (neighbors_cost : List (String × Int)) (now : Int) (seq : Int) :
    LSAPacket × Int :=
  let seq1 := seq + 1
  ({ router_id := selfId, sequence_number := seq1, timestamp := now,
     addresses := interfaces.map Interface.address,
     links := neighbors_cost }, seq1)

/-- An observable action of one `send_to_neighbors` iteration: the local
LSDB installation or one unicast datagram. -/
inductive LsaEvent where
  | install (packet : LSAPacket)
  | send (neighbor_id : String) (ip : String) (packet : LSAPacket)
deriving DecidableEq

/-- One iteration of the `while True` body of `LSASender.send_to_neighbors`:
create the packet, install it into the local LSDB, then unicast the encoded
packet to every recognized neighbor in dictionary order.  When the
installation raises, the iteration aborts before any send. -/
def send_to_neighbors_iteration (selfId : String) (interfaces : List Interface)
    (neighbors_cost : List (String × Int)) (neighbors_ip : List (String × String))
    (now : Int) (seq : Int) (table : LSDB.Table) (rt : LSDB.Routing) :
    LSAPacket × Int × LSDB.UpdateResult × List LsaEvent :=
  let pr := lsa_create_packet selfId interfaces neighbors_cost now seq
  let r := LSDB.update selfId neighbors_ip pr.1 table rt
  let events := match r.outcome with
    | .error _ => [LsaEvent.install pr.1]
    | _ => LsaEvent.install pr.1 ::
        neighbors_ip.map (fun p => LsaEvent.send p.1 p.2 pr.1)
  (pr.1, pr.2, r, events)

/-- The successive LSA packets originated by the sender loop across `n`
periods; an iteration whose installation raises kills the thread, ending
the run. -/
def lsa_run (selfId : String) (interfaces : List Interface)
    (neighbors_cost : List (String × Int)) (neighbors_ip : List (String × String))
    (now : Int) : Nat → Int → LSDB.Table → LSDB.Routing → List LSAPacket
  | 0, _, _, _ => []
  | n + 1, seq, table, rt =>
    let step := send_to_neighbors_iteration selfId interfaces neighbors_cost
      neighbors_ip now seq table rt
    match step.2.2.1.outcome with
    | .error _ => [step.1]
    | _ => step.1 :: lsa_run selfId interfaces neighbors_cost neighbors_ip now n
        step.2.1 step.2.2.1.table step.2.2.1.routing

/-- Opaque Python exception payload for the control-flow model of the
long-lived loops. -/
abbrev Exc := String

/-- A `try: body except Exception: log` wrapper: every exception is
swallowed and control continues. -/
def try_except_all (body : Except Exc Unit) : Except Exc Unit :=
  match body with
  | .ok _ => .ok ()
  | .error _ => .ok ()

/-- One iteration of `Router.receive_packets`: the entire body (recvfrom,
decode, JSON parse, dispatch to the neighbor manager) sits inside
`try ... except Exception`. -/
def receive_packets_iteration (work : Except Exc Unit) : Except Exc Unit :=
  try_except_all work

/-- One iteration of `HelloSender.send_to_all_neighbors`: per interface the
packet build and JSON encoding run unguarded, and only the `sendto` is
wrapped in `try ... except Exception`. -/
def hello_sender_iteration :
    List (Except Exc Unit × Except Exc Unit) → Except Exc Unit
  | [] => .ok ()
  | (build, send1) :: rest =>
    match build with
    | .error e => .error e
    | .ok _ =>
      match try_except_all send1 with
      | _ => hello_sender_iteration rest

/-- One iteration of `LSASender.send_to_neighbors` at the exception level:
`create_packet` and `self._lsdb.update(packet)` run unguarded; only each
per-neighbor `sendto` is wrapped in `try ... except Exception`. -/
def lsa_sender_iteration_exc (install : Except Exc Unit)
    (sends : List (Except Exc Unit)) : Except Exc Unit :=
  match install with
  | .error e => .error e
  | .ok _ => sends.foldl (fun acc s =>
      match acc with
      | .error e => .error e
      | .ok _ => try_except_all s) (.ok ())

/-- One iteration of `NeighborManager.check_failures` at the exception
level: the timestamp scan, the deletions and the `recalculate_routes` call
run with no exception handler at all. -/
def check_failures_iteration_exc (scan : Except Exc Unit)
    (recalc : Except Exc Unit) : Except Exc Unit :=
  match scan with
  | .error e => .error e
  | .ok _ => recalc

/-- A converged three-router LSDB of R1 as used in the duplicate-LSA
scenario S4. -/
def c3_table : LSDB.Table :=
  [("R3", create_entry 5 0 ["10.0.3.0/24"] [("R2", 1)]),
   ("R2", placeholder_entry),
   ("R1", create_entry 2 0 [] [("R2", 1)])]

/-- The LSA from R3 that R1 already holds (same origin, same sequence
number 5). -/
def c3_packet : LSAPacket := ⟨"R3", 5, 9, ["10.0.3.0/24"], [("R2", 1)]⟩

/-- Router A with one recognized neighbor B whose last HELLO (time 0) is
stale at scan time 100 with interval 10 and tolerance 3. -/
def c4_state : NodeState :=
  { router_id := "A", detected := [("B", 1)], recognized := [("B", "10.0.0.2")],
    hello_timestamps := [("B", 0)],
    table := [("A", create_entry 1 10 ["10.0.1.0/24"] [("B", 1)]),
              ("B", create_entry 5 20 ["10.0.2.0/24"] [("A", 1)])],
    routing := [("B", some "B")], lsa_started := true, lsa_start_count := 1 }

/-- The predecessor chain of `paths` from `d` reaching, after `n` steps, a
node `h` whose predecessor is the local router: the defining shape of a
destination with a finite Dijkstra distance. -/
inductive ReachesIn (paths : LSDB.Paths) (selfId : String) : Nat → String → String → Prop
  | stop {d : String} : lookupKV d paths = some (some selfId) →
      ReachesIn paths selfId 0 d d
  | step {n : Nat} {d m h : String} : lookupKV d paths = some (some m) →
      m ≠ selfId → ReachesIn paths selfId n m h →
      ReachesIn paths selfId (n + 1) d h

/-- The predecessor chain of `paths` from `d` ending, after `n` steps, at a
`None` predecessor: the shape of a destination with an infinite Dijkstra
distance (never relaxed, so its predecessor stayed `None`). -/
inductive ReachesNone (paths : LSDB.Paths) (selfId : String) : Nat → String → Prop
  | stop {d : String} : lookupKV d paths = some none →
      ReachesNone paths selfId 0 d
  | step {n : Nat} {d m : String} : lookupKV d paths = some (some m) →
      m ≠ selfId → ReachesNone paths selfId n m →
      ReachesNone paths selfId (n + 1) d

theorem lookupKV_upsert_self {α : Type} (k : String) (v : α) (l : List (String × α)) :
    lookupKV k (upsertKV k v l) = some v := by
  induction l with
  | nil => simp [upsertKV, lookupKV]
  | cons p t ih =>
    obtain ⟨k1, v1⟩ := p
    by_cases h : k = k1 <;> simp [upsertKV, lookupKV, h, ih]

theorem lookupKV_upsert_ne {α : Type} {k k1 : String} (h : k ≠ k1) (v : α)
    (l : List (String × α)) : lookupKV k (upsertKV k1 v l) = lookupKV k l := by
  induction l with
  | nil => simp [upsertKV, lookupKV, h]
  | cons p t ih =>
    obtain ⟨k2, v2⟩ := p
    by_cases h2 : k1 = k2
    · subst h2
      simp [upsertKV, lookupKV, h]
    · by_cases h3 : k = k2 <;> simp [upsertKV, lookupKV, h2, h3, ih]

theorem lookupKV_erase_self {α : Type} (k : String) (l : List (String × α)) :
    lookupKV k (eraseKV k l) = none := by
  induction l with
  | nil => simp [eraseKV, lookupKV]
  | cons p t ih =>
    obtain ⟨k1, v1⟩ := p
    by_cases h : k1 = k
    · simp [eraseKV, h, ih]
    · have h2 : k ≠ k1 := fun he => h he.symm
      simp [eraseKV, lookupKV, h, h2, ih]

theorem lookupKV_erase_ne {α : Type} {k k1 : String} (h : k ≠ k1)
    (l : List (String × α)) : lookupKV k (eraseKV k1 l) = lookupKV k l := by
  induction l with
  | nil => simp [eraseKV, lookupKV]
  | cons p t ih =>
    obtain ⟨k2, v2⟩ := p
    by_cases h2 : k2 = k1
    · subst h2
      simp [eraseKV, lookupKV, h, ih]
    · by_cases h3 : k = k2 <;> simp [eraseKV, lookupKV, h2, h3, ih]

theorem lookupKV_none_not_mem_fst {α : Type} {k : String} {l : List (String × α)}
    (h : lookupKV k l = none) : k ∉ l.map Prod.fst := by
  induction l with
  | nil => simp
  | cons p t ih =>
    obtain ⟨k1, v1⟩ := p
    by_cases h1 : k = k1
    · simp [lookupKV, h1] at h
    · simp [lookupKV, h1] at h
      simpa [h1] using ih h

theorem upsertKV_cons_self {α : Type} (k : String) (v v1 : α) (t : List (String × α)) :
    upsertKV k v ((k, v1) :: t) = (k, v) :: t := by
  simp [upsertKV]

theorem upsertKV_cons_ne {α : Type} {k k1 : String} (h : k ≠ k1) (v : α) (v1 : α)
    (t : List (String × α)) :
    upsertKV k v ((k1, v1) :: t) = (k1, v1) :: upsertKV k v t := by
  simp [upsertKV, h]

theorem mem_fst_upsert {α : Type} {a k : String} (v : α) (l : List (String × α)) :
    a ∈ (upsertKV k v l).map Prod.fst ↔ a = k ∨ a ∈ l.map Prod.fst := by
  induction l with
  | nil => simp [upsertKV]
  | cons p t ih =>
    obtain ⟨k1, v1⟩ := p
    by_cases h : k = k1
    · subst h
      rw [upsertKV_cons_self]
      simp only [List.map_cons, List.mem_cons]
      tauto
    · rw [upsertKV_cons_ne h]
      simp only [List.map_cons, List.mem_cons, ih]
      tauto

theorem nodup_fst_upsert {α : Type} {k : String} (v : α) {l : List (String × α)}
    (h : (l.map Prod.fst).Nodup) : ((upsertKV k v l).map Prod.fst).Nodup := by
  induction l with
  | nil => simp [upsertKV]
  | cons p t ih =>
    obtain ⟨k1, v1⟩ := p
    simp only [List.map_cons, List.nodup_cons] at h
    by_cases h2 : k = k1
    · subst h2
      rw [upsertKV_cons_self]
      simp only [List.map_cons, List.nodup_cons]
      exact h
    · rw [upsertKV_cons_ne h2]
      simp only [List.map_cons, List.nodup_cons]
      refine ⟨?_, ih h.2⟩
      intro hmem
      rcases (mem_fst_upsert v t).1 hmem with h3 | h3
      · exact h2 h3.symm
      · exact h.1 h3

theorem lookupKV_foldl_erase_none {α : Type} {k : String} (fl : List String)
    {l : List (String × α)} (h : lookupKV k l = none) :
    lookupKV k (fl.foldl (fun m r => eraseKV r m) l) = none := by
  induction fl generalizing l with
  | nil => simpa using h
  | cons r t ih =>
    simp only [List.foldl_cons]
    apply ih
    by_cases h2 : k = r
    · subst h2
      exact lookupKV_erase_self _ _
    · rw [lookupKV_erase_ne h2]
      exact h

theorem lookupKV_foldl_erase_mem {α : Type} {k : String} {fl : List String}
    (h : k ∈ fl) (l : List (String × α)) :
    lookupKV k (fl.foldl (fun m r => eraseKV r m) l) = none := by
  induction fl generalizing l with
  | nil => simp at h
  | cons r t ih =>
    simp only [List.foldl_cons]
    by_cases h2 : k ∈ t
    · exact ih h2 _
    · have hr : k = r := by
        rcases List.mem_cons.mp h with h3 | h3
        · exact h3
        · exact absurd h3 h2
      subst hr
      exact lookupKV_foldl_erase_none t (lookupKV_erase_self _ _)

theorem lookupKV_foldl_erase_notmem {α : Type} {k : String} {fl : List String}
    (h : k ∉ fl) (l : List (String × α)) :
    lookupKV k (fl.foldl (fun m r => eraseKV r m) l) = lookupKV k l := by
  induction fl generalizing l with
  | nil => simp
  | cons r t ih =>
    have h1 : k ≠ r := fun he => h (he ▸ List.mem_cons_self r t)
    have h2 : k ∉ t := fun hm => h (List.mem_cons_of_mem _ hm)
    simp only [List.foldl_cons]
    rw [ih h2, lookupKV_erase_ne h1]

theorem lookupKV_insert_placeholders_some {table : LSDB.Table} {k : String} {v : Entry}
    (h : lookupKV k table = some v) (l : List String) :
    lookupKV k (LSDB.insert_placeholders table l) = some v := by
  induction l generalizing table with
  | nil => simpa [LSDB.insert_placeholders] using h
  | cons nb rest ih =>
    simp only [LSDB.insert_placeholders]
    cases hnb : lookupKV nb table with
    | some w =>
      exact ih h
    | none =>
      have hk : k ≠ nb := by
        rintro rfl
        rw [h] at hnb
        cases hnb
      exact ih (by rw [lookupKV_upsert_ne hk]; exact h)

theorem lookupKV_insert_placeholders_mem {k : String} {l : List String} (h : k ∈ l)
    (table : LSDB.Table) :
    lookupKV k (LSDB.insert_placeholders table l) =
      some ((lookupKV k table).getD placeholder_entry) := by
  induction l generalizing table with
  | nil => cases h
  | cons nb rest ih =>
    by_cases hk : k = nb
    · subst hk
      simp only [LSDB.insert_placeholders]
      cases ht : lookupKV k table with
      | some v =>
        simpa [ht] using lookupKV_insert_placeholders_some ht rest
      | none =>
        have hup : lookupKV k (upsertKV k placeholder_entry table) =
            some placeholder_entry := lookupKV_upsert_self _ _ _
        simpa [ht] using lookupKV_insert_placeholders_some hup rest
    · have hrest : k ∈ rest := by
        rcases List.mem_cons.mp h with h1 | h1
        · exact absurd h1 hk
        · exact h1
      simp only [LSDB.insert_placeholders]
      cases ht : lookupKV nb table with
      | some v => exact ih hrest table
      | none =>
        have := ih hrest (upsertKV nb placeholder_entry table)
        rwa [lookupKV_upsert_ne hk] at this

theorem recalc_table (selfId : String) (nip : List (String × String))
    (obs : List String) (table : LSDB.Table) (rt : LSDB.Routing) :
    (LSDB.recalculate_routes selfId nip obs table rt).table =
      LSDB.insert_placeholders table obs := by
  simp only [LSDB.recalculate_routes]
  split
  · rfl
  · split
    · rfl
    · rfl

theorem update_stale {selfId : String} {nip : List (String × String)}
    {p : LSAPacket} {table : LSDB.Table} {rt : LSDB.Routing} {e : Entry}
    (h : lookupKV p.router_id table = some e)
    (h2 : p.sequence_number ≤ e.sequence_number) :
    LSDB.update selfId nip p table rt =
      { table := table, routing := rt, cmds := [], outcome := .ok false } := by
  unfold LSDB.update
  rw [h]
  simp [h2]

theorem update_table_fresh {selfId : String} {nip : List (String × String)}
    {p : LSAPacket} {table : LSDB.Table} {rt : LSDB.Routing}
    (h : ∀ e, lookupKV p.router_id table = some e →
      e.sequence_number < p.sequence_number) :
    (LSDB.update selfId nip p table rt).table =
      LSDB.insert_placeholders
        (upsertKV p.router_id
          (create_entry p.sequence_number p.timestamp p.addresses p.links) table)
        (p.links.map Prod.fst) := by
  unfold LSDB.update
  cases hl : lookupKV p.router_id table with
  | none =>
    simp only [recalc_table]
  | some e =>
    have he : ¬ p.sequence_number ≤ e.sequence_number := not_le.mpr (h e hl)
    simp only [he, if_false, recalc_table]

theorem update_outcome_fresh {selfId : String} {nip : List (String × String)}
    {p : LSAPacket} {table : LSDB.Table} {rt : LSDB.Routing}
    (h : ∀ e, lookupKV p.router_id table = some e →
      e.sequence_number < p.sequence_number) :
    (LSDB.update selfId nip p table rt).outcome ≠ .ok false := by
  unfold LSDB.update
  cases hl : lookupKV p.router_id table with
  | none =>
    cases herr : (LSDB.recalculate_routes selfId nip (p.links.map Prod.fst)
        (upsertKV p.router_id
          (create_entry p.sequence_number p.timestamp p.addresses p.links) table)
        rt).err with
    | none => simp [herr]
    | some e2 => simp [herr]
  | some e =>
    have he : ¬ p.sequence_number ≤ e.sequence_number := not_le.mpr (h e hl)
    cases herr : (LSDB.recalculate_routes selfId nip (p.links.map Prod.fst)
        (upsertKV p.router_id
          (create_entry p.sequence_number p.timestamp p.addresses p.links) table)
        rt).err with
    | none => simp [he, herr]
    | some e2 => simp [he, herr]

theorem update_ok_false_eq {selfId : String} {nip : List (String × String)}
    {p : LSAPacket} {table : LSDB.Table} {rt : LSDB.Routing}
    (h : (LSDB.update selfId nip p table rt).outcome = .ok false) :
    LSDB.update selfId nip p table rt =
      { table := table, routing := rt, cmds := [], outcome := .ok false } := by
  by_cases hs : ∃ e, lookupKV p.router_id table = some e ∧
      p.sequence_number ≤ e.sequence_number
  · obtain ⟨e, he, hle⟩ := hs
    exact update_stale he hle
  · exfalso
    refine update_outcome_fresh ?_ h
    intro e he
    by_contra hlt
    exact hs ⟨e, he, not_lt.mp hlt⟩

theorem lookupKV_some_mem {α : Type} {k : String} {v : α} {l : List (String × α)}
    (h : lookupKV k l = some v) : (k, v) ∈ l := by
  induction l with
  | nil => simp [lookupKV] at h
  | cons p t ih =>
    obtain ⟨k1, v1⟩ := p
    by_cases h1 : k = k1
    · subst h1
      simp [lookupKV] at h
      simp [h]
    · simp [lookupKV, h1] at h
      exact List.mem_cons_of_mem _ (ih h)

theorem nextHopWalk_of_reachesIn {paths : LSDB.Paths} {selfId : String}
    {n : Nat} {d h : String} (hr : ReachesIn paths selfId n d h) :
    ∀ fuel, n < fuel →
      LSDB.nextHopWalk paths selfId fuel (some d) = .ok (some h) := by
  induction hr with
  | stop hd =>
    intro fuel hf
    match fuel, hf with
    | f + 1, _ =>
      simp [LSDB.nextHopWalk, hd]
  | step hd hm hrec ih =>
    intro fuel hf
    match fuel, hf with
    | f + 1, hf =>
      simp only [LSDB.nextHopWalk, hd]
      rw [if_neg (fun hc => hm (Option.some.inj hc))]
      exact ih f (by omega)

theorem nextHopWalk_of_reachesNone {paths : LSDB.Paths} {selfId : String}
    {n : Nat} {d : String} (hr : ReachesNone paths selfId n d) :
    ∀ fuel, n + 1 < fuel →
      LSDB.nextHopWalk paths selfId fuel (some d) = .ok none := by
  induction hr with
  | stop hd =>
    intro fuel hf
    match fuel, hf with
    | f + 1, _ =>
      simp [LSDB.nextHopWalk, hd]
  | step hd hm hrec ih =>
    intro fuel hf
    match fuel, hf with
    | f + 1, hf =>
      simp only [LSDB.nextHopWalk, hd]
      rw [if_neg (fun hc => hm (Option.some.inj hc))]
      exact ih f (by omega)

theorem update_next_hop_loop_notmem {selfId : String} {paths : LSDB.Paths}
    {d : String} {keys : List String} (h : d ∉ keys) :
    ∀ rt rt1, LSDB.update_next_hop_loop selfId paths keys rt = (rt1, none) →
      lookupKV d rt1 = lookupKV d rt := by
  induction keys with
  | nil =>
    intro rt rt1 hl
    simp only [LSDB.update_next_hop_loop] at hl
    cases hl
    rfl
  | cons k rest ih =>
    intro rt rt1 hl
    have hdk : d ≠ k := fun he => h (he ▸ List.mem_cons_self k rest)
    have hdr : d ∉ rest := fun hm => h (List.mem_cons_of_mem _ hm)
    simp only [LSDB.update_next_hop_loop] at hl
    by_cases hk : k = selfId
    · rw [if_neg (by simpa using hk)] at hl
      exact ih hdr rt rt1 hl
    · rw [if_pos hk] at hl
      cases hw : LSDB.nextHopWalk paths selfId (paths.length + 1) (some k) with
      | error e =>
        rw [hw] at hl
        cases hl
      | ok hop =>
        rw [hw] at hl
        rw [ih hdr _ rt1 hl, lookupKV_upsert_ne hdk]

theorem update_next_hop_loop_mem {selfId : String} {paths : LSDB.Paths}
    {d : String} {v : Option String} {keys : List String} (hmem : d ∈ keys)
    (hnd : keys.Nodup) (hself : d ≠ selfId)
    (hwalk : LSDB.nextHopWalk paths selfId (paths.length + 1) (some d) = .ok v) :
    ∀ rt rt1, LSDB.update_next_hop_loop selfId paths keys rt = (rt1, none) →
      lookupKV d rt1 = some v := by
  induction keys with
  | nil => cases hmem
  | cons k rest ih =>
    intro rt rt1 hl
    simp only [LSDB.update_next_hop_loop] at hl
    by_cases hdk : d = k
    · subst hdk
      rw [if_pos hself, hwalk] at hl
      have hdr : d ∉ rest := (List.nodup_cons.mp hnd).1
      rw [update_next_hop_loop_notmem hdr _ rt1 hl, lookupKV_upsert_self]
    · have hdr : d ∈ rest := by
        rcases List.mem_cons.mp hmem with h1 | h1
        · exact absurd h1 hdk
        · exact h1
      have hnd2 : rest.Nodup := (List.nodup_cons.mp hnd).2
      by_cases hk : k = selfId
      · rw [if_neg (by simpa using hk)] at hl
        exact ih hdr hnd2 rt rt1 hl
      · rw [if_pos hk] at hl
        cases hw : LSDB.nextHopWalk paths selfId (paths.length + 1) (some k) with
        | error e =>
          rw [hw] at hl
          cases hl
        | ok hop =>
          rw [hw] at hl
          exact ih hdr hnd2 _ rt1 hl

theorem update_next_hop_loop_nodup {selfId : String} {paths : LSDB.Paths}
    {keys : List String} :
    ∀ rt rt1 e, (rt.map Prod.fst).Nodup →
      LSDB.update_next_hop_loop selfId paths keys rt = (rt1, e) →
      (rt1.map Prod.fst).Nodup := by
  induction keys with
  | nil =>
    intro rt rt1 e hnd hl
    simp only [LSDB.update_next_hop_loop] at hl
    cases hl
    exact hnd
  | cons k rest ih =>
    intro rt rt1 e hnd hl
    simp only [LSDB.update_next_hop_loop] at hl
    by_cases hk : k = selfId
    · rw [if_neg (by simpa using hk)] at hl
      exact ih rt rt1 e hnd hl
    · rw [if_pos hk] at hl
      cases hw : LSDB.nextHopWalk paths selfId (paths.length + 1) (some k) with
      | error e2 =>
        rw [hw] at hl
        cases hl
        exact hnd
      | ok hop =>
        rw [hw] at hl
        exact ih _ rt1 e (nodup_fst_upsert hop hnd) hl

theorem insertSorted_perm {α : Type} (p : String × α) (l : List (String × α)) :
    (insertSorted p l).Perm (p :: l) := by
  induction l with
  | nil => simp [insertSorted]
  | cons q t ih =>
    simp only [insertSorted]
    by_cases h : strLeB p.1 q.1 = true
    · rw [if_pos h]
    · rw [if_neg h]
      exact (ih.cons q).trans (List.Perm.swap p q t)

theorem sortByKey_perm {α : Type} (l : List (String × α)) :
    (sortByKey l).Perm l := by
  induction l with
  | nil => simp [sortByKey]
  | cons p t ih =>
    have : sortByKey (p :: t) = insertSorted p (sortByKey t) := rfl
    rw [this]
    exact (insertSorted_perm p (sortByKey t)).trans (ih.cons p)

theorem lookupKV_of_perm {α : Type} {l l2 : List (String × α)} (hp : l.Perm l2)
    (hnd : (l.map Prod.fst).Nodup) (k : String) :
    lookupKV k l = lookupKV k l2 := by
  induction hp with
  | nil => rfl
  | cons p hp2 ih =>
    obtain ⟨k1, v1⟩ := p
    simp only [List.map_cons, List.nodup_cons] at hnd
    by_cases h : k = k1
    · simp [lookupKV, h]
    · simp only [lookupKV, if_neg h]
      exact ih hnd.2
  | swap x y t =>
    obtain ⟨ky, vy⟩ := y
    obtain ⟨kx, vx⟩ := x
    simp only [List.map_cons, List.nodup_cons, List.mem_cons] at hnd
    have hxy : ky ≠ kx := fun he => hnd.1 (Or.inl he)
    by_cases h1 : k = ky
    · subst h1
      simp [lookupKV, hxy]
    · by_cases h2 : k = kx
      · subst h2
        simp [lookupKV, h1]
      · simp [lookupKV, h1, h2]
  | trans hp1 hp2 ih1 ih2 =>
    have hnd2 := ((hp1.map Prod.fst).nodup_iff).mp hnd
    rw [ih1 hnd, ih2 hnd2]

theorem lookupKV_sortByKey {α : Type} {l : List (String × α)}
    (hnd : (l.map Prod.fst).Nodup) (k : String) :
    lookupKV k (sortByKey l) = lookupKV k l := by
  have hp := sortByKey_perm l
  have hnds : ((sortByKey l).map Prod.fst).Nodup :=
    ((hp.map Prod.fst).nodup_iff).mpr hnd
  exact lookupKV_of_perm hp hnds k

theorem update_next_hop_ok {selfId : String} {paths : LSDB.Paths}
    {rt rt1 : LSDB.Routing}
    (h : LSDB.update_next_hop selfId paths rt = (rt1, none)) :
    ∃ rt0, LSDB.update_next_hop_loop selfId paths (paths.map Prod.fst) rt =
        (rt0, none) ∧ rt1 = sortByKey rt0 := by
  unfold LSDB.update_next_hop at h
  cases hm : LSDB.update_next_hop_loop selfId paths (paths.map Prod.fst) rt with
  | mk rt0 e =>
    cases e with
    | none =>
      rw [hm] at h
      cases h
      exact ⟨rt0, rfl, rfl⟩
    | some e2 =>
      rw [hm] at h
      cases h

theorem lookupKV_some_mem_fst {α : Type} {k : String} {v : α} {l : List (String × α)}
    (h : lookupKV k l = some v) : k ∈ l.map Prod.fst :=
  List.mem_map.mpr ⟨(k, v), lookupKV_some_mem h, rfl⟩

theorem lookupKV_insert_placeholders_notmem {k : String} {l : List String}
    (h : k ∉ l) (table : LSDB.Table) :
    lookupKV k (LSDB.insert_placeholders table l) = lookupKV k table := by
  induction l generalizing table with
  | nil => rfl
  | cons nb rest ih =>
    have hk : k ≠ nb := fun he => h (he ▸ List.mem_cons_self nb rest)
    have hr : k ∉ rest := fun hm => h (List.mem_cons_of_mem _ hm)
    simp only [LSDB.insert_placeholders]
    cases ht : lookupKV nb table with
    | some v => exact ih hr table
    | none =>
      rw [ih hr _, lookupKV_upsert_ne hk]

theorem update_fresh_lookup {selfId : String} {nip : List (String × String)}
    {p : LSAPacket} {table : LSDB.Table} {rt : LSDB.Routing}
    (h : ∀ e, lookupKV p.router_id table = some e →
      e.sequence_number < p.sequence_number) :
    lookupKV p.router_id (LSDB.update selfId nip p table rt).table =
      some (create_entry p.sequence_number p.timestamp p.addresses p.links) := by
  rw [update_table_fresh h]
  exact lookupKV_insert_placeholders_some (lookupKV_upsert_self _ _ _) _

theorem update_mono {selfId : String} {nip : List (String × String)}
    {p : LSAPacket} {table : LSDB.Table} {rt : LSDB.Routing} {rid : String}
    {e e2 : Entry} (hb : lookupKV rid table = some e)
    (ha : lookupKV rid (LSDB.update selfId nip p table rt).table = some e2) :
    e.sequence_number ≤ e2.sequence_number := by
  by_cases hs : ∃ e0, lookupKV p.router_id table = some e0 ∧
      p.sequence_number ≤ e0.sequence_number
  · obtain ⟨e0, he0, hle⟩ := hs
    rw [update_stale he0 hle] at ha
    rw [hb] at ha
    cases ha
    exact le_refl _
  · have hfresh : ∀ e0, lookupKV p.router_id table = some e0 →
        e0.sequence_number < p.sequence_number := by
      intro e0 he0
      by_contra hlt
      exact hs ⟨e0, he0, not_lt.mp hlt⟩
    rw [update_table_fresh hfresh] at ha
    by_cases hr : rid = p.router_id
    · subst hr
      rw [lookupKV_insert_placeholders_some (lookupKV_upsert_self _ _ _) _] at ha
      cases ha
      exact le_of_lt (hfresh e hb)
    · have hne : lookupKV rid (upsertKV p.router_id
          (create_entry p.sequence_number p.timestamp p.addresses p.links) table) =
          some e := by
        rw [lookupKV_upsert_ne hr]
        exact hb
      rw [lookupKV_insert_placeholders_some hne _] at ha
      cases ha
      exact le_refl _

theorem mem_value_unique_of_nodup_fst {α : Type} {l : List (String × α)}
    (hnd : (l.map Prod.fst).Nodup) {d : String} {v w : α}
    (hv : (d, v) ∈ l) (hw : (d, w) ∈ l) : v = w := by
  induction l with
  | nil => cases hv
  | cons p t ih =>
    obtain ⟨k1, v1⟩ := p
    simp only [List.map_cons, List.nodup_cons] at hnd
    rcases List.mem_cons.mp hv with h1 | h1 <;>
      rcases List.mem_cons.mp hw with h2 | h2
    · rw [Prod.mk.injEq] at h1 h2
      exact h1.2.trans h2.2.symm
    · exfalso
      rw [Prod.mk.injEq] at h1
      exact hnd.1 (h1.1 ▸ List.mem_map.mpr ⟨(d, w), h2, rfl⟩)
    · exfalso
      rw [Prod.mk.injEq] at h2
      exact hnd.1 (h2.1 ▸ List.mem_map.mpr ⟨(d, v), h1, rfl⟩)
    · exact ih hnd.2 h1 h2

theorem update_routes_loop_gateway {selfId : String} {table : LSDB.Table}
    {nip : List (String × String)} :
    ∀ (rtl : List (String × Option String)) (acc : List Command),
      (∀ c ∈ acc, lookupKV c.gateway nip = some c.via_ip) →
      ∀ c ∈ (LSDB.update_routes_loop selfId table nip rtl acc).1,
        lookupKV c.gateway nip = some c.via_ip := by
  intro rtl
  induction rtl with
  | nil =>
    intro acc hacc c hc
    exact hacc c hc
  | cons p rest ih =>
    obtain ⟨dest, gw⟩ := p
    intro acc hacc c hc
    simp only [LSDB.update_routes_loop] at hc
    by_cases hd : dest = selfId
    · rw [if_neg (by simpa using hd)] at hc
      exact ih acc hacc c hc
    · rw [if_pos hd] at hc
      cases gw with
      | none => exact ih acc hacc c hc
      | some g =>
        dsimp only at hc
        cases hg : lookupKV g nip with
        | none =>
          rw [hg] at hc
          exact ih acc hacc c hc
        | some gip =>
          rw [hg] at hc
          cases ht : lookupKV dest table with
          | none =>
            rw [ht] at hc
            exact hacc c hc
          | some e =>
            rw [ht] at hc
            refine ih _ ?_ c hc
            intro c2 hc2
            rcases List.mem_append.mp hc2 with h2 | h2
            · exact hacc c2 h2
            · obtain ⟨a, _, rfl⟩ := List.mem_map.mp h2
              exact hg

theorem update_routes_loop_skip {selfId : String} {table : LSDB.Table}
    {nip : List (String × String)} {d : String} :
    ∀ (rtl : List (String × Option String)) (acc : List Command),
      (∀ gw, (d, gw) ∈ rtl → ∀ g, gw = some g → lookupKV g nip = none) →
      ∀ c ∈ (LSDB.update_routes_loop selfId table nip rtl acc).1,
        c.dest_router = d → c ∈ acc := by
  intro rtl
  induction rtl with
  | nil =>
    intro acc _ c hc _
    exact hc
  | cons p rest ih =>
    obtain ⟨dest, gw⟩ := p
    intro acc hbad c hc hcd
    have hbadrest : ∀ gw2, (d, gw2) ∈ rest → ∀ g, gw2 = some g →
        lookupKV g nip = none := fun gw2 hm => hbad gw2 (List.mem_cons_of_mem _ hm)
    simp only [LSDB.update_routes_loop] at hc
    by_cases hd : dest = selfId
    · rw [if_neg (by simpa using hd)] at hc
      exact ih acc hbadrest c hc hcd
    · rw [if_pos hd] at hc
      cases gw with
      | none => exact ih acc hbadrest c hc hcd
      | some g =>
        dsimp only at hc
        cases hg : lookupKV g nip with
        | none =>
          rw [hg] at hc
          exact ih acc hbadrest c hc hcd
        | some gip =>
          rw [hg] at hc
          have hdd : dest ≠ d := by
            rintro rfl
            rw [hbad (some g) (List.mem_cons_self _ _) g rfl] at hg
            cases hg
          cases ht : lookupKV dest table with
          | none =>
            rw [ht] at hc
            exact hc
          | some e =>
            rw [ht] at hc
            have := ih _ hbadrest c hc hcd
            rcases List.mem_append.mp this with h2 | h2
            · exact h2
            · exfalso
              obtain ⟨a, _, rfl⟩ := List.mem_map.mp h2
              exact hdd hcd

theorem lsa_run_get (selfId : String) (interfaces : List Interface)
    (ncost : List (String × Int)) (nip : List (String × String)) (now : Int) :
    ∀ (n : Nat) (seq : Int) (table : LSDB.Table) (rt : LSDB.Routing)
      (i : Nat) (hi : i < (lsa_run selfId interfaces ncost nip now n seq table rt).length),
      ((lsa_run selfId interfaces ncost nip now n seq table rt).get ⟨i, hi⟩).sequence_number =
        seq + 1 + i := by
  intro n
  induction n with
  | zero =>
    intro seq table rt i hi
    simp [lsa_run] at hi
  | succ n ih =>
    intro seq table rt i hi
    revert hi
    simp only [lsa_run]
    cases ho : (send_to_neighbors_iteration selfId interfaces ncost nip now seq
        table rt).2.2.1.outcome with
    | error e =>
      intro hi
      match i, hi with
      | 0, _ => simp [send_to_neighbors_iteration, lsa_create_packet]
    | ok b =>
      intro hi
      match i, hi with
      | 0, _ => simp [send_to_neighbors_iteration, lsa_create_packet]
      | i + 1, hi =>
        have hlen : i < (lsa_run selfId interfaces ncost nip now n
            (send_to_neighbors_iteration selfId interfaces ncost nip now seq
              table rt).2.1
            (send_to_neighbors_iteration selfId interfaces ncost nip now seq
              table rt).2.2.1.table
            (send_to_neighbors_iteration selfId interfaces ncost nip now seq
              table rt).2.2.1.routing).length := by
          simp only [List.length_cons] at hi
          omega
        have h2 := ih _ _ _ i hlen
        simp only [List.get_cons_succ]
        rw [h2]
        rw [show (send_to_neighbors_iteration selfId interfaces ncost nip now seq
          table rt).2.1 = seq + 1 from rfl]
        push_cast
        ring

theorem process_hello_start_invariant (env : String → Option Int)
    (p : HelloPacket) (ip : String) (s : NodeState)
    (h : s.lsa_start_count ≤ if s.lsa_started then 1 else 0) :
    (process_hello env p ip s).lsa_start_count ≤
      if (process_hello env p ip s).lsa_started then 1 else 0 := by
  unfold process_hello
  by_cases hc : s.router_id ∈ p.known_neighbors ∧
      lookupKV p.router_id s.recognized = none
  · rw [if_pos hc]
    unfold lsa_start
    cases hst : s.lsa_started
    · rw [hst] at h
      simp only [Bool.false_eq_true, if_false, Nat.le_zero] at h
      simp [hst, h]
    · rw [hst] at h
      simp only [if_true] at h
      simp [hst, h]
  · rw [if_neg hc]
    exact h

theorem foldl_process_hello_start_count (env : String → Option Int)
    (ops : List (HelloPacket × String)) :
    ∀ s : NodeState, s.lsa_start_count ≤ (if s.lsa_started then 1 else 0) →
      (ops.foldl (fun st pi => process_hello env pi.1 pi.2 st) s).lsa_start_count ≤ 1 := by
  induction ops with
  | nil =>
    intro s h
    simp only [List.foldl_nil]
    exact h.trans (by split <;> omega)
  | cons op rest ih =>
    intro s h
    simp only [List.foldl_cons]
    exact ih _ (process_hello_start_invariant env op.1 op.2 s h)

theorem process_lsa_fst (selfId : String) (nip : List (String × String))
    (packet : LSAPacket) (sip : String) (table : LSDB.Table) (rt : LSDB.Routing) :
    (process_lsa selfId nip packet sip table rt).1 =
      LSDB.update selfId nip packet table rt := by
  simp only [process_lsa]
  cases (LSDB.update selfId nip packet table rt).outcome with
  | ok b => cases b <;> rfl
  | error e => rfl

theorem process_lsa_snd_true {selfId : String} {nip : List (String × String)}
    {packet : LSAPacket} {sip : String} {table : LSDB.Table} {rt : LSDB.Routing}
    (h : (LSDB.update selfId nip packet table rt).outcome = .ok true) :
    (process_lsa selfId nip packet sip table rt).2 =
      forward_to_neighbors nip packet sip := by
  simp only [process_lsa]
  rw [h]

theorem process_lsa_snd_not_true {selfId : String} {nip : List (String × String)}
    {packet : LSAPacket} {sip : String} {table : LSDB.Table} {rt : LSDB.Routing}
    (h : (LSDB.update selfId nip packet table rt).outcome ≠ .ok true) :
    (process_lsa selfId nip packet sip table rt).2 = [] := by
  simp only [process_lsa]

/-- Claim C1 (corrected): `LSDB.update(p)` returns false and leaves the
table, routing table and issued commands unchanged when an entry for
`p.router_id` exists with a sequence number at least `p`'s; otherwise it
stores the entry built from `p`'s fields and never returns false — it
returns true when the subsequent route recalculation completes and
propagates the raised exception instead when it does not (see the
counterexample).  Across any completed or aborted update, the stored
sequence number of every router id never decreases. -/
theorem claim_c1_amended (selfId : String) (nip : List (String × String))
    (p : LSAPacket) (table : LSDB.Table) (rt : LSDB.Routing) :
    (∀ e, lookupKV p.router_id table = some e →
      p.sequence_number ≤ e.sequence_number →
      LSDB.update selfId nip p table rt =
        { table := table, routing := rt, cmds := [], outcome := .ok false }) ∧
    ((∀ e, lookupKV p.router_id table = some e →
        e.sequence_number < p.sequence_number) →
      lookupKV p.router_id (LSDB.update selfId nip p table rt).table =
          some (create_entry p.sequence_number p.timestamp p.addresses p.links) ∧
        (LSDB.update selfId nip p table rt).outcome ≠ .ok false) ∧
    (∀ rid e e2, lookupKV rid table = some e →
      lookupKV rid (LSDB.update selfId nip p table rt).table = some e2 →
      e.sequence_number ≤ e2.sequence_number) :=
  ⟨fun _ he hle => update_stale he hle,
    fun hf => ⟨update_fresh_lookup hf, update_outcome_fresh hf⟩,
    fun _ _ _ hb ha => update_mono hb ha⟩

/-- Counterexample to claim C1 as stated: on an empty LSDB (no entry for
R3, so the claim demands that `update` return true), router R1 processing
a fresh LSA from R3 raises `KeyError("R1")` inside Dijkstra instead of
returning true. -/
theorem claim_c1_counterexample :
    lookupKV "R3" ([] : LSDB.Table) = none ∧
    (LSDB.update "R1" [] ⟨"R3", 1, 5, ["10.0.0.3"], [("R2", 1)]⟩ [] []).outcome ≠
      Except.ok true := by
  refine ⟨rfl, ?_⟩
  intro hcontra
  have h2 : (Except.error (PyErr.keyError "R1") : Except PyErr Bool) =
      Except.ok true := hcontra
  exact Except.noConfusion h2

/-- Witness for claim C1 at a concrete stale packet: an LSA from R3 with
sequence number 5 against a stored entry with sequence number 5 is
rejected and changes nothing. -/
theorem claim_c1_witness :
    LSDB.update "R1" [] ⟨"R3", 5, 9, [], []⟩ [("R3", create_entry 5 0 [] [])] [] =
      { table := [("R3", create_entry 5 0 [] [])], routing := [], cmds := [],
        outcome := .ok false } :=
  (claim_c1_amended "R1" [] ⟨"R3", 5, 9, [], []⟩ [("R3", create_entry 5 0 [] [])]
    []).1 (create_entry 5 0 [] []) rfl (by decide)

/-- Claim C2 (amended): after next-hop derivation succeeds, every
destination distinct from the local router whose predecessor chain reaches
a node `h` preceded by the local router is mapped to `h` in the routing
table; a destination whose predecessor chain ends at `None` (the
infinite-distance case) receives a routing-table entry mapping it to
`None` — it is skipped later at install time — rather than being omitted
from the table. -/
theorem claim_c2_amended (selfId : String) (paths : LSDB.Paths)
    (rt rt1 : LSDB.Routing) (hnp : (paths.map Prod.fst).Nodup)
    (hnr : (rt.map Prod.fst).Nodup)
    (hok : LSDB.update_next_hop selfId paths rt = (rt1, none)) :
    (∀ d h n, d ≠ selfId → n ≤ paths.length → ReachesIn paths selfId n d h →
      lookupKV d rt1 = some (some h)) ∧
    (∀ d n, d ≠ selfId → n + 1 ≤ paths.length → ReachesNone paths selfId n d →
      lookupKV d rt1 = some none) := by
  obtain ⟨rt0, hloop, hsort⟩ := update_next_hop_ok hok
  have hnd0 : (rt0.map Prod.fst).Nodup :=
    update_next_hop_loop_nodup rt rt0 none hnr hloop
  constructor
  · intro d h n hds hlen hr
    have hdmem : d ∈ paths.map Prod.fst := by
      cases hr with
      | stop hd => exact lookupKV_some_mem_fst hd
      | step hd _ _ => exact lookupKV_some_mem_fst hd
    have hwalk := nextHopWalk_of_reachesIn hr (paths.length + 1) (by omega)
    have hl := update_next_hop_loop_mem hdmem hnp hds hwalk rt rt0 hloop
    rw [hsort, lookupKV_sortByKey hnd0, hl]
  · intro d n hds hlen hr
    have hdmem : d ∈ paths.map Prod.fst := by
      cases hr with
      | stop hd => exact lookupKV_some_mem_fst hd
      | step hd _ _ => exact lookupKV_some_mem_fst hd
    have hwalk := nextHopWalk_of_reachesNone hr (paths.length + 1) (by omega)
    have hl := update_next_hop_loop_mem hdmem hnp hds hwalk rt rt0 hloop
    rw [hsort, lookupKV_sortByKey hnd0, hl]

/-- Counterexample to claim C2 as stated: with self-router A and an
unreachable placeholder B, Dijkstra leaves B with predecessor `None`
(infinite distance), yet after route recomputation the routing table
contains an entry for B (mapped to `None`) instead of omitting B. -/
theorem claim_c2_counterexample :
    LSDB.dijkstra "A" [("A", create_entry 1 0 [] []), ("B", placeholder_entry)] =
      .ok [("A", none), ("B", none)] ∧
    (LSDB.recalculate_routes "A" [] []
      [("A", create_entry 1 0 [] []), ("B", placeholder_entry)] []).routing =
      [("B", none)] ∧
    lookupKV "B" (LSDB.recalculate_routes "A" [] []
      [("A", create_entry 1 0 [] []), ("B", placeholder_entry)] []).routing =
      some none :=
  ⟨rfl, rfl, rfl⟩

/-- Witness for claim C2: with predecessor map `B ↦ A` and self-router A,
the derived routing table maps B to B (the node whose predecessor is
self). -/
theorem claim_c2_witness :
    lookupKV "B" [("B", (some "B" : Option String))] = some (some "B") :=
  (claim_c2_amended "A" [("B", some "A")] [] [("B", some "B")]
    (by decide) (by decide) rfl).1 "B" "B" 0 (by decide) (by decide)
    (ReachesIn.stop rfl)

/-- Claim C5 (code bug): router R1 with an empty LSDB (it has not yet
originated its own LSA) receives a flooded LSA from R3 with links to R2.
The table is updated, but SPF does not run to completion: Dijkstra seeds
`distances["R1"] = 0`, selects R1, and `self._table["R1"]` raises
`KeyError`, so `update` raises instead of returning true and the install
step is never reached (the receiver loop catches the exception). -/
theorem claim_c5_code_bug :
    (LSDB.update "R1" [] ⟨"R3", 1, 5, ["10.0.0.3"], [("R2", 1)]⟩ [] []).outcome =
      Except.error (PyErr.keyError "R1") ∧
    lookupKV "R3"
      (LSDB.update "R1" [] ⟨"R3", 1, 5, ["10.0.0.3"], [("R2", 1)]⟩ [] []).table =
      some (create_entry 1 5 ["10.0.0.3"] [("R2", 1)]) ∧
    lookupKV "R2"
      (LSDB.update "R1" [] ⟨"R3", 1, 5, ["10.0.0.3"], [("R2", 1)]⟩ [] []).table =
      some placeholder_entry ∧
    (LSDB.update "R1" [] ⟨"R3", 1, 5, ["10.0.0.3"], [("R2", 1)]⟩ [] []).routing = [] :=
  ⟨rfl, rfl, rfl, rfl⟩

/-- Claim C10: a placeholder entry carries sequence number −1, so any
genuine LSA (sequence number at least 0) from that router passes the
staleness test — `update` never returns false — and the placeholder is
replaced by the real entry built from the packet. -/
theorem claim_c10 (selfId : String) (nip : List (String × String))
    (p : LSAPacket) (table : LSDB.Table) (rt : LSDB.Routing) (e : Entry)
    (h1 : lookupKV p.router_id table = some e)
    (h2 : e.sequence_number = -1) (h3 : 0 ≤ p.sequence_number) :
    (LSDB.update selfId nip p table rt).outcome ≠ .ok false ∧
    lookupKV p.router_id (LSDB.update selfId nip p table rt).table =
      some (create_entry p.sequence_number p.timestamp p.addresses p.links) := by
  have hfresh : ∀ e2, lookupKV p.router_id table = some e2 →
      e2.sequence_number < p.sequence_number := by
    intro e2 he2
    rw [h1] at he2
    cases he2
    omega
  exact ⟨update_outcome_fresh hfresh, update_fresh_lookup hfresh⟩

/-- Witness for claim C10: a placeholder for R9 is replaced by the real
entry of the first genuine LSA from R9 (sequence number 0). -/
theorem claim_c10_witness :
    (LSDB.update "R1" [] ⟨"R9", 0, 3, ["10.0.9.0/24"], []⟩
      [("R9", placeholder_entry)] []).outcome ≠ .ok false ∧
    lookupKV "R9" (LSDB.update "R1" [] ⟨"R9", 0, 3, ["10.0.9.0/24"], []⟩
      [("R9", placeholder_entry)] []).table =
      some (create_entry 0 3 ["10.0.9.0/24"] []) :=
  claim_c10 "R1" [] ⟨"R9", 0, 3, ["10.0.9.0/24"], []⟩ [("R9", placeholder_entry)]
    [] placeholder_entry rfl rfl (by decide)

/-- Claim C3: a received LSA is forwarded exactly when `LSDB.update`
returns true, and then the very same packet is sent to every recognized
neighbor whose recorded IP differs from the incoming source IP; every
performed send carries the unchanged packet to such a neighbor; and when
`update` returns false nothing is sent, the LSDB and the routing table are
unchanged, and no route command is issued. -/
theorem claim_c3 (selfId : String) (nip : List (String × String))
    (packet : LSAPacket) (sender_ip : String) (table : LSDB.Table)
    (rt : LSDB.Routing) :
    ((LSDB.update selfId nip packet table rt).outcome = .ok true →
      ∀ nid ip, (nid, ip) ∈ nip → ip ≠ sender_ip →
        ({ neighbor_id := nid, ip := ip, packet := packet } : Send) ∈
          (process_lsa selfId nip packet sender_ip table rt).2) ∧
    (∀ s2 ∈ (process_lsa selfId nip packet sender_ip table rt).2,
      (LSDB.update selfId nip packet table rt).outcome = .ok true ∧
        s2.packet = packet ∧ (s2.neighbor_id, s2.ip) ∈ nip ∧
        s2.ip ≠ sender_ip) ∧
    ((LSDB.update selfId nip packet table rt).outcome = .ok false →
      (process_lsa selfId nip packet sender_ip table rt).2 = [] ∧
        (process_lsa selfId nip packet sender_ip table rt).1 =
          { table := table, routing := rt, cmds := [], outcome := .ok false }) := by
  refine ⟨?_, ?_, ?_⟩
  · intro hok nid ip hmem hne
    rw [process_lsa_snd_true hok]
    unfold forward_to_neighbors
    exact List.mem_map.mpr
      ⟨(nid, ip), List.mem_filter.mpr ⟨hmem, by simp [hne]⟩, rfl⟩
  · intro s2 hs2
    by_cases hok : (LSDB.update selfId nip packet table rt).outcome = .ok true
    · rw [process_lsa_snd_true hok] at hs2
      unfold forward_to_neighbors at hs2
      obtain ⟨⟨nid, ip⟩, hf, rfl⟩ := List.mem_map.mp hs2
      obtain ⟨hmem, hdec⟩ := List.mem_filter.mp hf
      exact ⟨hok, rfl, hmem, by simpa using hdec⟩
    · rw [process_lsa_snd_not_true hok] at hs2
      cases hs2
  · intro hfalse
    constructor
    · apply process_lsa_snd_not_true
      intro hc
      rw [hfalse] at hc
      exact Bool.noConfusion (Except.ok.inj hc)
    · rw [process_lsa_fst]
      exact update_ok_false_eq hfalse

/-- Witness for claim C3 at the duplicate-LSA scenario S4: receiving an LSA
already stored with the same sequence number returns false from `update`,
sends nothing, and leaves the state untouched. -/
theorem claim_c3_witness :
    (process_lsa "R1" [("R2", "ip2")] c3_packet "ip2" c3_table []).2 = [] ∧
    (process_lsa "R1" [("R2", "ip2")] c3_packet "ip2" c3_table []).1 =
      { table := c3_table, routing := [], cmds := [], outcome := .ok false } :=
  (claim_c3 "R1" [("R2", "ip2")] c3_packet "ip2" c3_table []).2.2 rfl

/-- Claim C4 (amended): a neighbor whose last HELLO is older than
`hello_interval * tolerance` is removed from NeighborCost and NeighborIP,
but LastHello is left unchanged (the neighbor is re-declared failed on
every scan); its LSDB entry is deleted yet immediately re-inserted as a
sequence −1 placeholder by the `recalculate_routes(failed_routers)` call,
and the links referring to it inside the local self-entry are not removed
(the self-entry is untouched); route recomputation is then triggered. -/
theorem claim_c4_amended (now hello_interval tolerance : Int) (s : NodeState)
    (n : String) (ts : Int)
    (h1 : lookupKV n s.hello_timestamps = some ts)
    (h2 : now - ts > hello_interval * tolerance)
    (hself : lookupKV s.router_id s.hello_timestamps = none) :
    lookupKV n (check_failures_scan now hello_interval tolerance s).1.detected =
      none ∧
    lookupKV n (check_failures_scan now hello_interval tolerance s).1.recognized =
      none ∧
    (check_failures_scan now hello_interval tolerance s).1.hello_timestamps =
      s.hello_timestamps ∧
    lookupKV n (check_failures_scan now hello_interval tolerance s).1.table =
      some placeholder_entry ∧
    lookupKV s.router_id
        (check_failures_scan now hello_interval tolerance s).1.table =
      lookupKV s.router_id s.table := by
  have hpair : (n, ts) ∈ s.hello_timestamps := lookupKV_some_mem h1
  have hmemf : n ∈ (s.hello_timestamps.filter
      (fun p => decide (now - p.2 > hello_interval * tolerance))).map Prod.fst :=
    List.mem_map.mpr ⟨(n, ts), List.mem_filter.mpr ⟨hpair, by simpa using h2⟩, rfl⟩
  have hselfnm : s.router_id ∉ (s.hello_timestamps.filter
      (fun p => decide (now - p.2 > hello_interval * tolerance))).map Prod.fst := by
    intro hm
    obtain ⟨⟨k, ts2⟩, hfil, hk⟩ := List.mem_map.mp hm
    have hmem2 := (List.mem_filter.mp hfil).1
    exact lookupKV_none_not_mem_fst hself
      (List.mem_map.mpr ⟨(k, ts2), hmem2, hk⟩)
  simp only [check_failures_scan]
  refine ⟨lookupKV_foldl_erase_mem hmemf _, lookupKV_foldl_erase_mem hmemf _,
    trivial, ?_, ?_⟩
  · rw [recalc_table, lookupKV_insert_placeholders_mem hmemf,
      lookupKV_foldl_erase_mem hmemf]
    rfl
  · rw [recalc_table, lookupKV_insert_placeholders_notmem hselfnm,
      lookupKV_foldl_erase_notmem hselfnm]

/-- Counterexample to claim C4 as stated: after B (last HELLO at time 0) is
declared failed at time 100, LastHello still contains B, the LSDB still
contains B (as a freshly re-inserted placeholder), and the self-entry of A
still lists the link to B. -/
theorem claim_c4_counterexample :
    (check_failures_scan 100 10 3 c4_state).1.hello_timestamps = [("B", 0)] ∧
    lookupKV "B" (check_failures_scan 100 10 3 c4_state).1.table =
      some placeholder_entry ∧
    (lookupKV "A" (check_failures_scan 100 10 3 c4_state).1.table).map
      Entry.links = some [("B", 1)] :=
  ⟨rfl, rfl, rfl⟩

/-- Witness for claim C4 at the concrete failed-neighbor state. -/
theorem claim_c4_witness :
    lookupKV "B" (check_failures_scan 100 10 3 c4_state).1.detected = none ∧
    lookupKV "B" (check_failures_scan 100 10 3 c4_state).1.recognized = none ∧
    (check_failures_scan 100 10 3 c4_state).1.hello_timestamps =
      c4_state.hello_timestamps ∧
    lookupKV "B" (check_failures_scan 100 10 3 c4_state).1.table =
      some placeholder_entry ∧
    lookupKV "A" (check_failures_scan 100 10 3 c4_state).1.table =
      lookupKV "A" c4_state.table :=
  claim_c4_amended 100 10 3 c4_state "B" 0 rfl (by decide) rfl

/-- Claim C6: every issued `ip route replace` command routes via the
recorded IP of a router currently present in NeighborIP, and a destination
whose next hop is `None` or not in NeighborIP contributes no command at
all. -/
theorem claim_c6 (selfId : String) (table : LSDB.Table)
    (nip : List (String × String)) (rt : LSDB.Routing) :
    (∀ c ∈ (LSDB.update_routes selfId table nip rt).1,
      lookupKV c.gateway nip = some c.via_ip) ∧
    ((rt.map Prod.fst).Nodup → ∀ d gw, (d, gw) ∈ rt →
      (∀ g, gw = some g → lookupKV g nip = none) →
      ∀ c ∈ (LSDB.update_routes selfId table nip rt).1, c.dest_router ≠ d) := by
  constructor
  · exact update_routes_loop_gateway rt [] (by intro c hc; cases hc)
  · intro hnd d gw hmem hbad c hc hcd
    have hb2 : ∀ gw2, (d, gw2) ∈ rt → ∀ g, gw2 = some g →
        lookupKV g nip = none := by
      intro gw2 hm2 g hg
      have hgw : gw2 = gw := mem_value_unique_of_nodup_fst hnd hm2 hmem
      exact hbad g (hgw ▸ hg)
    have := update_routes_loop_skip rt [] hb2 c hc hcd
    cases this

/-- Witness for claim C6: with destination B routed via recognized
gateway G, the single issued command goes via the recorded IP of G. -/
theorem claim_c6_witness :
    lookupKV "G" [("G", "9.9.9.9")] = some "9.9.9.9" :=
  (claim_c6 "A" [("B", create_entry 1 0 ["10.0.5.0/24"] [])] [("G", "9.9.9.9")]
    [("B", some "G")]).1
    { dest_router := "B", dest_ip := "10.0.5.0/24", gateway := "G",
      via_ip := "9.9.9.9" } (by decide)

/-- Claim C7: `create_packet` increments the sequence counter by exactly
one before building the LSA (which carries the incremented value); each
iteration of the sender loop installs the originated LSA into the local
LSDB before any send event, and when the installation does not raise it
unicasts the packet once per recognized neighbor to that neighbor's
recorded IP, in order; starting from the initial counter 0, the packets
originated across the loop carry the strictly increasing consecutive
sequence numbers 1, 2, 3, .... -/
theorem claim_c7 (selfId : String) (interfaces : List Interface)
    (ncost : List (String × Int)) (nip : List (String × String)) (now : Int)
    (seq : Int) (table : LSDB.Table) (rt : LSDB.Routing) :
    ((send_to_neighbors_iteration selfId interfaces ncost nip now seq table
        rt).1.sequence_number = seq + 1) ∧
    ((send_to_neighbors_iteration selfId interfaces ncost nip now seq table
        rt).2.1 = seq + 1) ∧
    ((send_to_neighbors_iteration selfId interfaces ncost nip now seq table
        rt).2.2.2.head? = some (LsaEvent.install
        (send_to_neighbors_iteration selfId interfaces ncost nip now seq table
          rt).1)) ∧
    ((∀ e2, (send_to_neighbors_iteration selfId interfaces ncost nip now seq
        table rt).2.2.1.outcome ≠ Except.error e2) →
      (send_to_neighbors_iteration selfId interfaces ncost nip now seq table
          rt).2.2.2 =
        LsaEvent.install (send_to_neighbors_iteration selfId interfaces ncost
            nip now seq table rt).1 ::
          nip.map (fun q => LsaEvent.send q.1 q.2
            (send_to_neighbors_iteration selfId interfaces ncost nip now seq
              table rt).1)) ∧
    (∀ (n : Nat) (t0 : LSDB.Table) (rt0 : LSDB.Routing) (i : Nat)
      (hi : i < (lsa_run selfId interfaces ncost nip now n
        lsa_initial_sequence_number t0 rt0).length),
      ((lsa_run selfId interfaces ncost nip now n lsa_initial_sequence_number
        t0 rt0).get ⟨i, hi⟩).sequence_number =
        lsa_initial_sequence_number + 1 + i) := by
  refine ⟨rfl, rfl, ?_, ?_, ?_⟩
  · simp only [send_to_neighbors_iteration]
    split <;> rfl
  · intro hne
    simp only [send_to_neighbors_iteration] at hne ⊢
  · intro n t0 rt0 i hi
    exact lsa_run_get selfId interfaces ncost nip now n
      lsa_initial_sequence_number t0 rt0 i hi

/-- Witness for claim C7: router A with one recognized neighbor B; the
first origination carries sequence number 1, is installed, and is sent
once to B's recorded IP. -/
theorem claim_c7_witness :
    (send_to_neighbors_iteration "A" [⟨"10.0.0.1", some "10.0.0.255"⟩]
        [("B", 1)] [("B", "10.0.0.2")] 7 0 [] []).2.2.2 =
      LsaEvent.install (send_to_neighbors_iteration "A"
          [⟨"10.0.0.1", some "10.0.0.255"⟩] [("B", 1)] [("B", "10.0.0.2")]
          7 0 [] []).1 ::
        [("B", "10.0.0.2")].map (fun q => LsaEvent.send q.1 q.2
          (send_to_neighbors_iteration "A" [⟨"10.0.0.1", some "10.0.0.255"⟩]
            [("B", 1)] [("B", "10.0.0.2")] 7 0 [] []).1) :=
  (claim_c7 "A" [⟨"10.0.0.1", some "10.0.0.255"⟩] [("B", 1)]
    [("B", "10.0.0.2")] 7 0 [] []).2.2.2.1 (by
      intro e2 hc
      have ho : (send_to_neighbors_iteration "A"
          [⟨"10.0.0.1", some "10.0.0.255"⟩] [("B", 1)] [("B", "10.0.0.2")]
          7 0 [] []).2.2.1.outcome = Except.ok true := rfl
      rw [ho] at hc
      exact Except.noConfusion hc)

/-- Claim C8: processing a HELLO adds the sender to NeighborIP with the
HELLO's source IP exactly when the packet lists this router among its
known neighbors and the sender is not yet recognized, and on that event
the LSA engine is signalled to start; otherwise NeighborIP and the start
state are untouched.  The start signal is idempotent: across any sequence
of processed HELLOs from the initial state, at most one sender thread is
ever launched. -/
theorem claim_c8 (env : String → Option Int) (packet : HelloPacket)
    (sender_ip : String) (s : NodeState) :
    ((s.router_id ∈ packet.known_neighbors ∧
        lookupKV packet.router_id s.recognized = none) →
      lookupKV packet.router_id
          (process_hello env packet sender_ip s).recognized = some sender_ip ∧
        (process_hello env packet sender_ip s).lsa_started = true) ∧
    (¬(s.router_id ∈ packet.known_neighbors ∧
        lookupKV packet.router_id s.recognized = none) →
      (process_hello env packet sender_ip s).recognized = s.recognized ∧
        (process_hello env packet sender_ip s).lsa_started = s.lsa_started ∧
        (process_hello env packet sender_ip s).lsa_start_count =
          s.lsa_start_count) ∧
    (∀ (rid : String) (ops : List (HelloPacket × String)),
      (ops.foldl (fun st pi => process_hello env pi.1 pi.2 st)
        (router_init rid)).lsa_start_count ≤ 1) := by
  refine ⟨?_, ?_, ?_⟩
  · intro hc
    unfold process_hello
    rw [if_pos hc]
    cases hst : s.lsa_started <;>
      simp [lsa_start, hst, lookupKV_upsert_self]
  · intro hc
    unfold process_hello
    rw [if_neg hc]
    exact ⟨rfl, rfl, rfl⟩
  · intro rid ops
    exact foldl_process_hello_start_count env ops (router_init rid)
      (by simp [router_init])

/-- Witness for claim C8: router A receives a HELLO from unknown B listing
A among its known neighbors; B becomes recognized at the HELLO's source IP
and the LSA engine is started. -/
theorem claim_c8_witness :
    lookupKV "B" (process_hello (fun _ => none) ⟨"B", 5, "10.0.0.2", ["A"]⟩
        "10.0.0.2" (router_init "A")).recognized = some "10.0.0.2" ∧
    (process_hello (fun _ => none) ⟨"B", 5, "10.0.0.2", ["A"]⟩ "10.0.0.2"
        (router_init "A")).lsa_started = true :=
  (claim_c8 (fun _ => none) ⟨"B", 5, "10.0.0.2", ["A"]⟩ "10.0.0.2"
    (router_init "A")).1 ⟨by decide, rfl⟩

/-- Claim C9 (code bug): only the packet-receiver loop wraps its whole
iteration in `try ... except Exception`.  The failure-detector loop
(`check_failures`) has no handler at all, so any exception raised by its
scan or by `recalculate_routes` (for instance a `FileNotFoundError` from
the route subprocess, which the `except subprocess.CalledProcessError`
clause does not catch, or a `RuntimeError` from a dict mutated by a
concurrent thread) unwinds and kills the thread; likewise the LSA sender
guards only the per-neighbor `sendto`, so an exception from
`self._lsdb.update(packet)` kills that thread, and the HELLO sender's
packet construction is also unguarded. -/
theorem claim_c9_code_bug :
    receive_packets_iteration (.error "json.JSONDecodeError") = .ok () ∧
    check_failures_iteration_exc (.ok ()) (.error "FileNotFoundError: ip") =
      .error "FileNotFoundError: ip" ∧
    lsa_sender_iteration_exc (.error "RuntimeError: dict changed size")
      [.ok ()] = .error "RuntimeError: dict changed size" ∧
    lsa_sender_iteration_exc (.ok ()) [.error "OSError", .error "OSError"] =
      .ok () ∧
    hello_sender_iteration [(.ok (), .error "OSError")] = .ok () ∧
    hello_sender_iteration [(.error "TypeError", .ok ())] =
      .error "TypeError" :=
  ⟨rfl, rfl, rfl, rfl, rfl, rfl⟩
